import Mathlib

/-!
# SoulMail — Whispers to Myself, backend: AI generation service, verified model

A shallow embedding of the structured-generation core of the backend:

* `src/services/aiService.js` — sanitization, fallback extraction,
  generation-config merging, prompt validation, provider error
  classification, and the per-intent generation functions;
* `src/unnamed/part_000` (the AI controller) — request validation and
  the `count` clamp for the writing-prompts endpoint.

JavaScript strings are modelled as `String`/`List Char`; absent or
`undefined`/`null` values as `Option`; JS numbers as `ℚ` (the concrete
values in play are decimal literals, exactly representable); thrown
exceptions as `Except`.  The external Gemini provider is a parameter
(`ProviderOutcome`): the service issues exactly one call per invocation,
so one outcome value determines the run, and every entry point returns
the number of provider calls it made alongside its result.
-/

namespace SoulMail

/-! ## Character-level helpers (JS string primitives) -/

/-- The whitespace class used by JavaScript `String.prototype.trim`
(restricted to the code points the repository's data can contain:
space, tab, line feed, carriage return, vertical tab, form feed). -/
def isJsWs (c : Char) : Bool :=
  c == ' ' || c == '\t' || c == '\n' || c == '\r' ||
    c == Char.ofNat 11 || c == Char.ofNat 12

/-- The single-quote character, `'`. -/
def squote : Char := Char.ofNat 39

/-- JS `.trim()` on a list of characters: drop leading and trailing
whitespace. -/
def jsTrim (l : List Char) : List Char :=
  (((l.dropWhile isJsWs).reverse.dropWhile isJsWs)).reverse

/-- JS `.trim()` on a `String`. -/
def jsTrimStr (s : String) : String :=
  String.mk (jsTrim s.data)

/-- `.replace(/"/g, "'")` — replace every double quote with a single
quote. -/
def replaceQuotes (l : List Char) : List Char :=
  l.map fun c => if c = '"' then squote else c

/-- `.replace(/\\/g, '')` — remove every backslash. -/
def removeBackslashes (l : List Char) : List Char :=
  l.filter fun c => !(c == '\\')

/-- Whether the list contains three consecutive line feeds — the
condition the regex `/\n{3,}/` matches somewhere. -/
def hasTriple : List Char → Bool
  | a :: b :: c :: rest =>
      (a == '\n' && b == '\n' && c == '\n') || hasTriple (b :: c :: rest)
  | _ => false

/-- The block emitted for a maximal run of `k` line feeds by
`.replace(/\n{3,}/g, '\n\n')`: runs of three or more collapse to two,
shorter runs are kept. -/
def emitRun (k : Nat) : List Char :=
  List.replicate (if 3 ≤ k then 2 else k) '\n'

/-- Scanner for `.replace(/\n{3,}/g, '\n\n')`: `k` counts the line
feeds of the run being read. -/
def collapseGo : List Char → Nat → List Char
  | [], k => emitRun k
  | c :: rest, k =>
      if c = '\n' then collapseGo rest (k + 1)
      else emitRun k ++ c :: collapseGo rest 0

/-- `.replace(/\n{3,}/g, '\n\n')` — collapse every run of three or
more line feeds to exactly two. -/
def collapseNewlines (l : List Char) : List Char :=
  collapseGo l 0

/-- `sanitizeForPrompt` on the character list (`aiService.js`,
lines 177–186): truncate to `maxLength`, replace double quotes with
single quotes, strip backslashes, collapse newline runs, trim. -/
def sanitizeChars (l : List Char) (maxLength : Nat) : List Char :=
  jsTrim (collapseNewlines (removeBackslashes (replaceQuotes (l.take maxLength))))

/-- `sanitizeForPrompt(text, maxLength)` — `none` models a missing /
`undefined` argument; the JS guard `if (!text) return ''` also returns
the empty string for the (falsy) empty string. -/
def sanitizeForPrompt (text : Option String) (maxLength : Nat) : String :=
  match text with
  | none => ""
  | some s => if s = "" then "" else String.mk (sanitizeChars s.data maxLength)

example : sanitizeForPrompt (some "  a\"b\\c\n\n\n\nd  ") 100 = "a'bc\n\nd" := by
  decide

example : sanitizeForPrompt none 5 = "" := rfl

example : sanitizeForPrompt (some "abcdef") 3 = "abc" := by decide

/-! ## Fallback question extraction (`extractQuestionFromText`) -/

/-- The fixed default reflection question (`aiService.js`, lines 158
and 170). -/
def DEFAULT_FALLBACK_QUESTION : String :=
  "How do you feel reading this letter now?"

/-- Scanner for the leftmost match of the regex `/[^.!?]*\?/`: `acc`
holds (reversed) the sentence characters read since the last sentence
break.  On `?` the pending run plus the `?` is the match; on `.` or
`!` the run restarts; any other character extends it. -/
def firstQuestionSeg : List Char → List Char → Option (List Char)
  | [], _ => none
  | c :: rest, acc =>
      if c = '?' then some (acc.reverse ++ ['?'])
      else if c = '.' ∨ c = '!' then firstQuestionSeg rest []
      else firstQuestionSeg rest (c :: acc)

/-- `text.match(/[^.!?]*\?/)` — the leftmost substring of
sentence characters ending in a question mark, if any. -/
def questionMatch (l : List Char) : Option (List Char) :=
  firstQuestionSeg l []

/-- The trailing run of characters that are neither `.` nor `!`. -/
def trailNonBreak (t : List Char) : List Char :=
  (t.reverse.takeWhile fun c => !(c == '.' || c == '!')).reverse

/-- The first substring of the text ending in `?`, described
declaratively (the spec's words): everything from just after the last
sentence break (`.` or `!`) preceding the first `?`, through that
first `?`.  Meaningful when the text contains a `?`. -/
def specQuestionSegment (l : List Char) : List Char :=
  trailNonBreak (l.takeWhile fun c => !(c == '?')) ++ ['?']

/-- The cleanup applied to a regex match (`aiService.js`, lines
164–167): strip leading non-letters, remove double and single quotes,
trim. -/
def cleanQuestion (m : List Char) : String :=
  String.mk (jsTrim ((m.dropWhile fun c => !c.isAlpha).filter
    fun c => !(c == '"' || c == squote)))

/-- `extractQuestionFromText(text)` (`aiService.js`, lines 157–171).
`none` models an absent/`undefined` argument; the falsy guard
`if (!text)` also catches the empty string. -/
def extractQuestionFromText (text : Option String) : String :=
  match text with
  | none => DEFAULT_FALLBACK_QUESTION
  | some s =>
      if s = "" then DEFAULT_FALLBACK_QUESTION
      else
        match questionMatch s.data with
        | some m => cleanQuestion m
        | none => DEFAULT_FALLBACK_QUESTION

example :
    extractQuestionFromText (some "...great! How are you feeling now?") =
      "How are you feeling now?" := by decide

example : extractQuestionFromText (some "No question here.") =
    DEFAULT_FALLBACK_QUESTION := by decide

/-! ## Writing-prompt fallback (split / trim / filter / slice) -/

/-- JS `.split('\n')`: cut the list at every line feed, keeping empty
segments. -/
def splitNl : List Char → List (List Char)
  | [] => [[]]
  | c :: rest =>
      if c = '\n' then [] :: splitNl rest
      else
        match splitNl rest with
        | a :: t => (c :: a) :: t
        | [] => [[c]]

/-- The qualifying lines of the writing-prompts fallback
(`aiService.js`, lines 242–245): split the raw text on line feeds,
trim each line, keep the lines longer than 5 characters. -/
def qualifyingLines (s : String) : List String :=
  ((splitNl s.data).map fun l => String.mk (jsTrim l)).filter
    fun p => decide (5 < p.length)

/-- The writing-prompts fallback (`aiService.js`, lines 242–248):
qualifying lines, truncated by `.slice(0, count)`. -/
def fallbackWritingPrompts (s : String) (count : Nat) : List String :=
  (qualifyingLines s).take count

example :
    fallbackWritingPrompts "a\nShort\nThis is a valid prompt line\n" 3 =
      ["This is a valid prompt line"] := by decide

/-! ## `parseInt` and the writing-prompts count clamp -/

/-- The digits value of a list of decimal digit characters. -/
def digitsVal (l : List Char) : Nat :=
  l.foldl (fun n c => 10 * n + (c.toNat - '0'.toNat)) 0

/-- JS `parseInt(x, 10)`: skip leading whitespace, read an optional
sign and then the longest prefix of decimal digits; `none` is `NaN`
(no digits, or a missing argument, whose string form `"undefined"`
has no leading digits). -/
def jsParseInt (s : Option String) : Option Int :=
  match s with
  | none => none
  | some str =>
      let t := str.data.dropWhile isJsWs
      let signAndRest : Int × List Char :=
        match t with
        | '-' :: r => (-1, r)
        | '+' :: r => (1, r)
        | r => (1, r)
      let digits := signAndRest.2.takeWhile fun c => c.isDigit
      if digits.isEmpty then none
      else some (signAndRest.1 * (digitsVal digits : Int))

/-- The count actually used by the writing-prompts controller
(`src/unnamed/part_000`, lines 83–86):
`let promptCount = parseInt(count, 10) || 3` followed by the clamps
into `[1, 5]`.  `parseInt` results `NaN` and `0` are falsy, so both
fall back to `3`. -/
def getWritingPromptsCount (raw : Option String) : Int :=
  let promptCount : Int :=
    match jsParseInt raw with
    | none => 3
    | some v => if v = 0 then 3 else v
  let promptCount := if promptCount < 1 then 1 else promptCount
  if promptCount > 5 then 5 else promptCount

example : getWritingPromptsCount (some "0") = 3 := by decide
example : getWritingPromptsCount (some "abc") = 3 := by decide
example : getWritingPromptsCount (some "6") = 5 := by decide
example : getWritingPromptsCount (some "-2") = 1 := by decide
example : getWritingPromptsCount (some " 4x") = 4 := by decide
example : getWritingPromptsCount none = 3 := by decide

/-! ## Generation configuration (`buildGenerationConfig`) -/

/-- The caller-supplied generation options of `generateContent`.
Each sampling field is `none` when absent, `undefined` or `null`
(those three are indistinguishable to both `||` and `??`), and
`some v` for a number `v`; JS numbers are modelled as `ℚ`. -/
structure GenOptions where
  temperature : Option ℚ := none
  maxOutputTokens : Option ℚ := none
  topP : Option ℚ := none
  topK : Option ℚ := none
  systemInstruction : Option String := none
  model : Option String := none

/-- The merged generation configuration. -/
structure GenerationConfig where
  temperature : ℚ
  maxOutputTokens : ℚ
  topP : ℚ
  topK : ℚ
  systemInstruction : Option String := none
deriving DecidableEq

/-- JS `a || d` for a nullable number `a`: the default also wins when
the value is `0` (falsy). -/
def jsOrDefault (v : Option ℚ) (d : ℚ) : ℚ :=
  match v with
  | none => d
  | some x => if x = 0 then d else x

/-- `buildGenerationConfig(options)` (`aiService.js`, lines 452–466):
`temperature` and `maxOutputTokens` merge with `||`, `topP` and `topK`
with `??`; a truthy `systemInstruction` is copied onto the config. -/
def buildGenerationConfig (options : GenOptions) : GenerationConfig :=
  { temperature := jsOrDefault options.temperature 0.7
    maxOutputTokens := jsOrDefault options.maxOutputTokens 2048
    topP := options.topP.getD 0.95
    topK := options.topK.getD 40
    systemInstruction :=
      match options.systemInstruction with
      | some s => if s = "" then none else some s
      | none => none }

example : (buildGenerationConfig {}).temperature = 0.7 := rfl
example : (buildGenerationConfig { temperature := some 0 }).temperature = 0.7 := rfl
example : (buildGenerationConfig { topP := some 0 }).topP = 0 := rfl

/-! ## Error taxonomy, provider gateway and prompt validation -/

/-- The spec's stable error taxonomy (§7). -/
inductive ErrorKind where
  | validation
  | providerRateLimited
  | providerBadRequest
  | providerAuthFailed
  | providerUnavailable
deriving DecidableEq

/-- The provider-reported failure: a numeric status (absent for
transport-level failures) and the provider's own message. -/
structure ProviderError where
  status : Option Int := none
  message : String := ""
deriving DecidableEq

/-- Modelled from the spec: the `ValidationError` / `AIServiceError`
classes live in `src/middleware/errorHandler.js`, which is not among
the available sources; per the spec's `GenerationError` (§3) an error
is tagged with a taxonomy `kind`, carries a human-readable message,
an optional field-level detail map, and (for mapped provider errors)
the original failure as a wrapped cause. -/
structure AppError where
  kind : ErrorKind
  message : String
  details : List (String × String) := []
  cause : Option ProviderError := none
deriving DecidableEq

/-- The provider's raw response: `text` is `none` when the SDK yields
no text for the call. -/
structure GeminiResponse where
  text : Option String := none
  finishReason : Option String := none
  usageMetadata : Option String := none
deriving DecidableEq

/-- The single provider call's outcome — the service issues exactly
one call per invocation, so one value determines the run. -/
inductive ProviderOutcome where
  | success (resp : GeminiResponse)
  | failure (e : ProviderError)
deriving DecidableEq

/-- `callGeminiAPI` (`aiService.js`, lines 469–497): pass a successful
response through; classify a failure by its `status` — `429` to
rate-limited, `400` to bad-request with the provider's message
appended (and no wrapped cause), `401`/`403` to auth-failed, anything
else to unavailable with the provider's message appended. -/
def callGeminiAPI (outcome : ProviderOutcome) : Except AppError GeminiResponse :=
  match outcome with
  | .success resp => .ok resp
  | .failure e =>
      if e.status = some 429 then
        .error { kind := .providerRateLimited
                 message := "AI service rate limit exceeded. Please, try again later."
                 cause := some e }
      else if e.status = some 400 then
        .error { kind := .providerBadRequest
                 message := "Invalid request to AI service" ++ e.message }
      else if e.status = some 401 ∨ e.status = some 403 then
        .error { kind := .providerAuthFailed
                 message := "AI Service authentication failed. Check API key configuration."
                 cause := some e }
      else
        .error { kind := .providerUnavailable
                 message := "AI Service temporarily unavailable" ++ e.message
                 cause := some e }

/-- `validatePrompt(prompt)` (`aiService.js`, lines 437–449): `none`
models any non-string value (including a missing one); a string whose
trim is empty is rejected with field-level detail. -/
def validatePrompt (prompt : Option String) : Except AppError Unit :=
  match prompt with
  | none =>
      .error { kind := .validation
               message := "Prompt is required and must be a string"
               details := [("prompt", "A valid text prompt is required")] }
  | some p =>
      if jsTrimStr p = "" then
        .error { kind := .validation
                 message := "Prompt cannot be empty"
                 details := [("prompt", "Prompt must contain text")] }
      else .ok ()

/-- `formatResponse(response)` (`aiService.js`, lines 500–510). -/
structure FormattedResponse where
  text : String
  finishReason : Option String := none
  usageMetadata : Option String := none
deriving DecidableEq

def formatResponse (resp : GeminiResponse) : FormattedResponse :=
  { text := resp.text.getD ""
    finishReason := resp.finishReason
    usageMetadata := resp.usageMetadata }

/-- `generateContent(prompt, options)` (`aiService.js`, lines 66–81),
paired with the number of provider calls the run made: validation
happens before the (single) provider call, which receives the merged
generation config.  `provider` maps the config of the call to its
outcome. -/
def generateContent (prompt : Option String) (options : GenOptions)
    (provider : GenerationConfig → ProviderOutcome) :
    Except AppError FormattedResponse × Nat :=
  match validatePrompt prompt with
  | .error e => (.error e, 0)
  | .ok _ =>
      match callGeminiAPI (provider (buildGenerationConfig options)) with
      | .error e => (.error e, 1)
      | .ok resp => (.ok (formatResponse resp), 1)

/-! ## Response interpretation: schema parse or fallback

`JSON.parse` plus the destructuring of the expected field is abstracted
as a `decode` function: `decode t = some v` models the `try` block
binding the field to `v`, `decode t = none` models any exception in it
(malformed JSON, or a payload that cannot be destructured).  When the
raw text itself is absent (`response.text` is `undefined`),
`JSON.parse(undefined)` always throws, so the `catch` block runs. -/

/-- The metadata attached to a generation result: the success path
carries `finishReason`/`usageMetadata`, the fallback path is the
object `{ parseError: true }` (the spec's `degraded` marker). -/
inductive GenMetadata where
  | parsed (finishReason : Option String) (usageMetadata : Option String)
  | fallback
deriving DecidableEq

/-- Whether the metadata marks the result as produced by fallback
extraction — the spec's `degraded` flag, written `parseError: true` in
the source. -/
def GenMetadata.parseError : GenMetadata → Bool
  | .parsed _ _ => false
  | .fallback => true

structure ReflectionResult where
  prompt : String
  metadata : GenMetadata
deriving DecidableEq

structure WritingPromptsResult where
  prompts : List String
  metadata : GenMetadata
deriving DecidableEq

structure AffirmationResult where
  affirmation : String
  metadata : GenMetadata
deriving DecidableEq

/-- A runtime exception that escapes the service (a `TypeError` thrown
inside a `catch` block is not caught by that block's `try`). -/
inductive JsError where
  | typeError (message : String)
deriving DecidableEq

/-- An intent entry point fails either with a classified `AppError` or
with an uncaught runtime exception. -/
inductive Failure where
  | app (e : AppError)
  | runtime (e : JsError)
deriving DecidableEq

/-- The parse-or-fallback stage of `generateReflectionPrompt`
(`aiService.js`, lines 133–151): on any parse failure,
`extractQuestionFromText(response.text)` — which handles an absent
text — so this stage never throws. -/
def interpretReflection (decode : String → Option String)
    (resp : GeminiResponse) : ReflectionResult :=
  match resp.text with
  | some t =>
      match decode t with
      | some question => ⟨question, .parsed resp.finishReason resp.usageMetadata⟩
      | none => ⟨extractQuestionFromText (some t), .fallback⟩
  | none => ⟨extractQuestionFromText none, .fallback⟩

/-- The parse-or-fallback stage of `generateWritingPrompts`
(`aiService.js`, lines 229–251): the fallback calls
`response.text.split('\n')`, which throws a `TypeError` when the text
is absent. -/
def interpretWritingPrompts (decode : String → Option (List String))
    (resp : GeminiResponse) (count : Nat) :
    Except JsError WritingPromptsResult :=
  match resp.text with
  | some t =>
      match decode t with
      | some prompts => .ok ⟨prompts, .parsed resp.finishReason resp.usageMetadata⟩
      | none => .ok ⟨fallbackWritingPrompts t count, .fallback⟩
  | none =>
      .error (.typeError "Cannot read properties of undefined (reading 'split')")

/-- The parse-or-fallback stage of `generateAffirmation`
(`aiService.js`, lines 297–313): the fallback calls
`response.text.trim()`, which throws a `TypeError` when the text is
absent. -/
def interpretAffirmation (decode : String → Option String)
    (resp : GeminiResponse) : Except JsError AffirmationResult :=
  match resp.text with
  | some t =>
      match decode t with
      | some affirmation => .ok ⟨affirmation, .parsed resp.finishReason resp.usageMetadata⟩
      | none => .ok ⟨jsTrimStr t, .fallback⟩
  | none =>
      .error (.typeError "Cannot read properties of undefined (reading 'trim')")

/-! ## The per-intent service entry points -/

/-- A goal attached to a letter. -/
structure Goal where
  text : String := ""
  status : String := "pending"
deriving DecidableEq

/-- The letter record the Content Store supplies
(`letterService.getLetterById`).  `content` is `none` for an absent
field (falsy, like the empty string). -/
structure Letter where
  _id : String := ""
  content : Option String := none
  title : Option String := none
  mood : Option String := none
  goals : List Goal := []
  isDelivered : Bool := false
deriving DecidableEq

/-- `generateReflectionPrompt(letter)` (`aiService.js`, lines 87–152),
paired with the number of provider calls: a letter without (truthy)
content is rejected before the provider call; afterwards the response
is interpreted, never throwing. -/
def generateReflectionPrompt (letter : Letter)
    (provider : ProviderOutcome) (decode : String → Option String) :
    Except AppError ReflectionResult × Nat :=
  if letter.content = none ∨ letter.content = some "" then
    (.error { kind := .validation
              message := "Letter content is required to generate a reflection prompt"
              details := [("letter", "A valid letter with content is required")] }, 0)
  else
    match callGeminiAPI provider with
    | .error e => (.error e, 1)
    | .ok resp => (.ok (interpretReflection decode resp), 1)

/-- The options of `generateWritingPrompts` (`aiService.js`, line
193): `count` defaults to 3 when absent. -/
structure WritingPromptOptions where
  mood : Option String := none
  theme : Option String := none
  count : Nat := 3

/-- `generateWritingPrompts(options)` (`aiService.js`, lines 192–252),
paired with the number of provider calls. -/
def generateWritingPrompts (options : WritingPromptOptions)
    (provider : ProviderOutcome) (decode : String → Option (List String)) :
    Except Failure WritingPromptsResult × Nat :=
  match callGeminiAPI provider with
  | .error e => (.error (.app e), 1)
  | .ok resp =>
      match interpretWritingPrompts decode resp options.count with
      | .ok r => (.ok r, 1)
      | .error j => (.error (.runtime j), 1)

/-- The per-user stats consulted by the affirmation prompt. -/
structure UserStats where
  currentStreak : Int := 0
  totalLetters : Int := 0
  goalsAccomplished : Int := 0
deriving DecidableEq

/-- The options of `generateAffirmation` (`aiService.js`, line 260). -/
structure AffirmationOptions where
  username : Option String := none
  timeOfDay : Option String := none
  stats : Option UserStats := none

/-- `generateAffirmation(options)` (`aiService.js`, lines 259–314),
paired with the number of provider calls.  The options feed only the
rendered prompt, which the abstracted provider consumes. -/
def generateAffirmation (_options : AffirmationOptions)
    (provider : ProviderOutcome) (decode : String → Option String) :
    Except Failure AffirmationResult × Nat :=
  match callGeminiAPI provider with
  | .error e => (.error (.app e), 1)
  | .ok resp =>
      match interpretAffirmation decode resp with
      | .ok r => (.ok r, 1)
      | .error j => (.error (.runtime j), 1)

/-! ## The controller layer (`src/unnamed/part_000`) -/

/-- The envelope data of `POST /ai/reflection-prompt`. -/
structure ReflectionEnvelope where
  prompt : String
  letterId : String
deriving DecidableEq

/-- `getReflectionPrompt` (`src/unnamed/part_000`, lines 40–69),
paired with the number of provider calls: a falsy `letterId` and an
undelivered letter are rejected before the service (and hence the
provider) is reached.  `lookup` is the Content Store's answer for
`getLetterById(userId, letterId)`. -/
def getReflectionPrompt (letterId : Option String)
    (lookup : Except AppError Letter) (provider : ProviderOutcome)
    (decode : String → Option String) :
    Except AppError ReflectionEnvelope × Nat :=
  if letterId = none ∨ letterId = some "" then
    (.error { kind := .validation
              message := "Letter ID is required"
              details := [("letterId", "Please provide the letter ID")] }, 0)
  else
    match lookup with
    | .error e => (.error e, 0)
    | .ok letter =>
        if letter.isDelivered = false then
          (.error { kind := .validation
                    message := "Reflection prompts are only available for delivered letters"
                    details := [("letterId", "This letter has not been delivered yet")] }, 0)
        else
          match generateReflectionPrompt letter provider decode with
          | (.error e, n) => (.error e, n)
          | (.ok r, n) => (.ok ⟨r.prompt, letter._id⟩, n)

/-- `getWritingPrompts` (`src/unnamed/part_000`, lines 80–100), paired
with the number of provider calls: the raw `count` query value is
parsed and clamped by `getWritingPromptsCount` before the service is
called. -/
def getWritingPrompts (mood theme rawCount : Option String)
    (provider : ProviderOutcome) (decode : String → Option (List String)) :
    Except Failure (List String) × Nat :=
  match generateWritingPrompts
      { mood := mood, theme := theme
        count := (getWritingPromptsCount rawCount).toNat } provider decode with
  | (.error e, n) => (.error e, n)
  | (.ok r, n) => (.ok r.prompts, n)

/-! ## Supporting lemmas: newline-run collapsing -/

theorem hasTriple_tail {a : Char} {t : List Char}
    (h : hasTriple (a :: t) = false) : hasTriple t = false := by
  match t with
  | [] => rfl
  | [b] => rfl
  | b :: c :: r =>
      rw [hasTriple] at h
      exact (Bool.or_eq_false_iff.mp h).2

theorem hasTriple_cons_ne {a : Char} (t : List Char) (h : a ≠ '\n') :
    hasTriple (a :: t) = hasTriple t := by
  match t with
  | [] => rfl
  | [b] => rfl
  | b :: c :: r =>
      rw [hasTriple]
      have : (a == '\n') = false := by simpa using h
      simp [this]

theorem hasTriple_cons₂_ne (a : Char) {b : Char} (t : List Char) (h : b ≠ '\n') :
    hasTriple (a :: b :: t) = hasTriple (b :: t) := by
  match t with
  | [] => rfl
  | c :: r =>
      rw [hasTriple]
      have : (b == '\n') = false := by simpa using h
      simp [this]

theorem hasTriple_append_left : ∀ x y : List Char,
    hasTriple (x ++ y) = false → hasTriple x = false
  | [], _, _ => rfl
  | [_], _, _ => rfl
  | [_, _], _, _ => rfl
  | a :: b :: c :: r, y, h => by
      rw [List.cons_append, List.cons_append, List.cons_append, hasTriple] at h
      rcases Bool.or_eq_false_iff.mp h with ⟨h1, h2⟩
      rw [hasTriple, h1, Bool.false_or]
      exact hasTriple_append_left (b :: c :: r) y h2

theorem hasTriple_append_right : ∀ x y : List Char,
    hasTriple (x ++ y) = false → hasTriple y = false
  | [], _, h => h
  | a :: x, y, h => by
      rw [List.cons_append] at h
      exact hasTriple_append_right x y (hasTriple_tail h)

theorem hasTriple_replicate_le {k : Nat} (h : k ≤ 2) :
    hasTriple (List.replicate k '\n') = false := by
  interval_cases k <;> rfl

theorem hasTriple_emitRun (k : Nat) : hasTriple (emitRun k) = false := by
  unfold emitRun
  split
  · rfl
  · exact hasTriple_replicate_le (by omega)

theorem length_emitRun_le (k : Nat) : (emitRun k).length ≤ k := by
  unfold emitRun
  split
  · simp
    omega
  · simp

theorem mem_collapseGo {c : Char} : ∀ (l : List Char) (k : Nat),
    c ∈ collapseGo l k → c = '\n' ∨ c ∈ l
  | [], k, h => by
      left
      rw [collapseGo] at h
      have := List.eq_of_mem_replicate (by simpa [emitRun] using h)
      exact this
  | a :: rest, k, h => by
      rw [collapseGo] at h
      by_cases ha : a = '\n'
      · rw [if_pos ha] at h
        rcases mem_collapseGo rest (k + 1) h with h' | h'
        · exact Or.inl h'
        · exact Or.inr (List.mem_cons_of_mem a h')
      · rw [if_neg ha] at h
        rcases List.mem_append.mp h with h' | h'
        · exact Or.inl (List.eq_of_mem_replicate (by simpa [emitRun] using h'))
        · rcases List.mem_cons.mp h' with h'' | h''
          · exact Or.inr (h'' ▸ List.mem_cons_self a rest)
          · rcases mem_collapseGo rest 0 h'' with h3 | h3
            · exact Or.inl h3
            · exact Or.inr (List.mem_cons_of_mem a h3)

theorem length_collapseGo : ∀ (l : List Char) (k : Nat),
    (collapseGo l k).length ≤ k + l.length
  | [], k => by
      rw [collapseGo]
      simpa using length_emitRun_le k
  | a :: rest, k => by
      rw [collapseGo]
      by_cases ha : a = '\n'
      · rw [if_pos ha]
        have := length_collapseGo rest (k + 1)
        simp only [List.length_cons]
        omega
      · rw [if_neg ha]
        have h1 := length_emitRun_le k
        have h2 := length_collapseGo rest 0
        simp only [List.length_append, List.length_cons]
        omega

theorem length_collapseNewlines (l : List Char) :
    (collapseNewlines l).length ≤ l.length := by
  simpa using length_collapseGo l 0

theorem collapseGo_eq_self : ∀ (l : List Char) (k : Nat), k ≤ 2 →
    hasTriple (List.replicate k '\n' ++ l) = false →
    collapseGo l k = List.replicate k '\n' ++ l
  | [], k, hk, _ => by
      rw [collapseGo, List.append_nil]
      unfold emitRun
      rw [if_neg (by omega)]
  | a :: rest, k, hk, h => by
      rw [collapseGo]
      by_cases ha : a = '\n'
      · rw [if_pos ha]
        subst ha
        have hrepl : List.replicate k '\n' ++ '\n' :: rest =
            List.replicate (k + 1) '\n' ++ rest := by
          rw [List.replicate_add]
          simp
        have hk1 : k + 1 ≤ 2 := by
          by_contra hgt
          have hk2 : k = 2 := by omega
          subst hk2
          rw [show List.replicate 2 '\n' ++ '\n' :: rest =
            '\n' :: '\n' :: '\n' :: rest from rfl, hasTriple] at h
          simp at h
        rw [hrepl] at h
        rw [collapseGo_eq_self rest (k + 1) hk1 h, hrepl]
      · rw [if_neg ha]
        have hrest : hasTriple rest = false := by
          have h1 : hasTriple (a :: rest) = false :=
            hasTriple_append_right _ _ h
          exact hasTriple_tail h1
        rw [collapseGo_eq_self rest 0 (by omega) (by simpa using hrest)]
        unfold emitRun
        rw [if_neg (by omega)]
        simp

theorem collapseNewlines_eq_self {l : List Char}
    (h : hasTriple l = false) : collapseNewlines l = l := by
  simpa using collapseGo_eq_self l 0 (by omega) (by simpa using h)

theorem hasTriple_emitRun_append {j : Nat} (hj : j ≤ 2) {c : Char}
    (hc : c ≠ '\n') {m : List Char} (hm : hasTriple (c :: m) = false) :
    hasTriple (List.replicate j '\n' ++ c :: m) = false := by
  interval_cases j
  · simpa using hm
  · show hasTriple ('\n' :: c :: m) = false
    rw [hasTriple_cons₂_ne _ _ hc]
    exact hm
  · show hasTriple ('\n' :: '\n' :: c :: m) = false
    rw [hasTriple]
    have hbeq : (c == '\n') = false := by simpa using hc
    simp only [hbeq, Bool.and_false, Bool.false_or]
    rw [hasTriple_cons₂_ne _ _ hc]
    exact hm

theorem hasTriple_collapseGo : ∀ (l : List Char) (k : Nat),
    hasTriple (collapseGo l k) = false
  | [], k => by rw [collapseGo]; exact hasTriple_emitRun k
  | a :: rest, k => by
      rw [collapseGo]
      by_cases ha : a = '\n'
      · rw [if_pos ha]
        exact hasTriple_collapseGo rest (k + 1)
      · rw [if_neg ha]
        have hm : hasTriple (a :: collapseGo rest 0) = false := by
          rw [hasTriple_cons_ne _ ha]
          exact hasTriple_collapseGo rest 0
        have : emitRun k = List.replicate (if 3 ≤ k then 2 else k) '\n' := rfl
        rw [this]
        exact hasTriple_emitRun_append (by split <;> omega) ha hm

theorem hasTriple_collapseNewlines (l : List Char) :
    hasTriple (collapseNewlines l) = false :=
  hasTriple_collapseGo l 0

/-! ## Supporting lemmas: JS `trim` -/

theorem dropWhile_head_false {p : Char → Bool} :
    ∀ {l : List Char} {c : Char} {t : List Char},
      l.dropWhile p = c :: t → p c = false
  | [], _, _, h => by simp at h
  | a :: l', c, t, h => by
      by_cases ha : p a
      · rw [List.dropWhile_cons_of_pos ha] at h
        exact dropWhile_head_false h
      · rw [List.dropWhile_cons_of_neg ha] at h
        obtain ⟨rfl, -⟩ := List.cons.inj h
        simpa using ha

theorem dropWhile_idem (p : Char → Bool) (l : List Char) :
    (l.dropWhile p).dropWhile p = l.dropWhile p := by
  cases h : l.dropWhile p with
  | nil => rfl
  | cons c t =>
      rw [List.dropWhile_cons_of_neg (by simp [dropWhile_head_false h])]

/-- The leading-whitespace drop splits the list: `jsTrim l` is the
middle of `l` between dropped leading and trailing whitespace. -/
theorem jsTrim_decomp (l : List Char) :
    ∃ pre suf, pre ++ (jsTrim l ++ suf) = l ∧
      l.dropWhile isJsWs = jsTrim l ++ suf := by
  have h1 : l.dropWhile isJsWs <:+ l := List.dropWhile_suffix isJsWs
  have h2 : (l.dropWhile isJsWs).reverse.dropWhile isJsWs <:+
      (l.dropWhile isJsWs).reverse := List.dropWhile_suffix isJsWs
  obtain ⟨pre, hpre⟩ := h1
  obtain ⟨suf2, hsuf⟩ := h2
  have hkey : jsTrim l ++ suf2.reverse = l.dropWhile isJsWs := by
    rw [show jsTrim l ++ suf2.reverse =
      (suf2 ++ (l.dropWhile isJsWs).reverse.dropWhile isJsWs).reverse by
        simp [jsTrim], hsuf]
    simp
  exact ⟨pre, suf2.reverse, by rw [hkey]; exact hpre, hkey.symm⟩

theorem jsTrim_sublist (l : List Char) : List.Sublist (jsTrim l) l := by
  obtain ⟨pre, suf, h, _⟩ := jsTrim_decomp l
  have hs : List.Sublist (jsTrim l) (pre ++ (jsTrim l ++ suf)) :=
    (List.sublist_append_left (jsTrim l) suf).trans
      (List.sublist_append_right pre (jsTrim l ++ suf))
  rwa [h] at hs

theorem length_jsTrim_le (l : List Char) : (jsTrim l).length ≤ l.length :=
  (jsTrim_sublist l).length_le

theorem mem_of_mem_jsTrim {c : Char} {l : List Char} (h : c ∈ jsTrim l) :
    c ∈ l :=
  (jsTrim_sublist l).subset h

theorem hasTriple_jsTrim {l : List Char} (h : hasTriple l = false) :
    hasTriple (jsTrim l) = false := by
  obtain ⟨pre, suf, hd, _⟩ := jsTrim_decomp l
  rw [← hd] at h
  exact hasTriple_append_left _ _ (hasTriple_append_right _ _ h)

theorem jsTrim_idem (l : List Char) : jsTrim (jsTrim l) = jsTrim l := by
  have hdrop : (jsTrim l).dropWhile isJsWs = jsTrim l := by
    cases h : jsTrim l with
    | nil => rfl
    | cons c t =>
        obtain ⟨pre, suf, _, hmid⟩ := jsTrim_decomp l
        rw [h] at hmid
        have hc : isJsWs c = false := dropWhile_head_false (by rw [hmid]; rfl)
        rw [List.dropWhile_cons_of_neg (by simp [hc])]
  show (((jsTrim l).dropWhile isJsWs).reverse.dropWhile isJsWs).reverse = jsTrim l
  rw [hdrop]
  have h2 : (jsTrim l).reverse = (l.dropWhile isJsWs).reverse.dropWhile isJsWs := by
    rw [show jsTrim l = ((l.dropWhile isJsWs).reverse.dropWhile isJsWs).reverse
      from rfl, List.reverse_reverse]
  rw [h2, dropWhile_idem]
  rfl

/-! ## Supporting lemmas: the sanitizer pipeline -/

theorem map_id_of {f : Char → Char} {l : List Char}
    (h : ∀ c ∈ l, f c = c) : l.map f = l := by
  induction l with
  | nil => rfl
  | cons a t ih =>
      rw [List.map_cons, h a (List.mem_cons_self a t),
        ih fun c hc => h c (List.mem_cons_of_mem a hc)]

theorem quote_not_mem_sanitizeChars (l : List Char) (m : Nat) :
    '"' ∉ sanitizeChars l m := by
  intro hmem
  have h1 : '"' ∈ collapseNewlines (removeBackslashes (replaceQuotes (l.take m))) :=
    mem_of_mem_jsTrim hmem
  rcases mem_collapseGo _ 0 h1 with h2 | h2
  · exact absurd h2 (by decide)
  · have h3 : '"' ∈ replaceQuotes (l.take m) := List.mem_of_mem_filter h2
    obtain ⟨a, _, ha⟩ := List.mem_map.mp h3
    by_cases hq : a = '"'
    · rw [if_pos hq] at ha
      exact absurd ha (by decide)
    · rw [if_neg hq] at ha
      exact hq ha

theorem backslash_not_mem_sanitizeChars (l : List Char) (m : Nat) :
    '\\' ∉ sanitizeChars l m := by
  intro hmem
  have h1 : '\\' ∈ collapseNewlines (removeBackslashes (replaceQuotes (l.take m))) :=
    mem_of_mem_jsTrim hmem
  rcases mem_collapseGo _ 0 h1 with h2 | h2
  · exact absurd h2 (by decide)
  · have h3 := List.of_mem_filter h2
    simp at h3

theorem length_sanitizeChars_le (l : List Char) (m : Nat) :
    (sanitizeChars l m).length ≤ m := by
  calc (sanitizeChars l m).length
      ≤ (collapseNewlines (removeBackslashes (replaceQuotes (l.take m)))).length :=
        length_jsTrim_le _
    _ ≤ (removeBackslashes (replaceQuotes (l.take m))).length :=
        length_collapseNewlines _
    _ ≤ (replaceQuotes (l.take m)).length := (List.filter_sublist _).length_le
    _ = (l.take m).length := List.length_map _ _
    _ ≤ m := by simp

theorem hasTriple_sanitizeChars (l : List Char) (m : Nat) :
    hasTriple (sanitizeChars l m) = false :=
  hasTriple_jsTrim (hasTriple_collapseNewlines _)

theorem jsTrim_sanitizeChars (l : List Char) (m : Nat) :
    jsTrim (sanitizeChars l m) = sanitizeChars l m :=
  jsTrim_idem _

theorem sanitizeChars_idem (l : List Char) (m : Nat) :
    sanitizeChars (sanitizeChars l m) m = sanitizeChars l m := by
  have htake : (sanitizeChars l m).take m = sanitizeChars l m :=
    List.take_of_length_le (length_sanitizeChars_le l m)
  have hmap : replaceQuotes (sanitizeChars l m) = sanitizeChars l m :=
    map_id_of fun c hc => by
      have : c ≠ '"' := fun h => quote_not_mem_sanitizeChars l m (h ▸ hc)
      rw [if_neg this]
  have hfilter : removeBackslashes (sanitizeChars l m) = sanitizeChars l m :=
    List.filter_eq_self.mpr fun c hc => by
      have : c ≠ '\\' := fun h => backslash_not_mem_sanitizeChars l m (h ▸ hc)
      simpa using this
  have hcoll : collapseNewlines (sanitizeChars l m) = sanitizeChars l m :=
    collapseNewlines_eq_self (hasTriple_sanitizeChars l m)
  show jsTrim (collapseNewlines (removeBackslashes (replaceQuotes
    ((sanitizeChars l m).take m)))) = sanitizeChars l m
  rw [htake, hmap, hfilter, hcoll, jsTrim_sanitizeChars]

theorem data_sanitizeForPrompt (t : Option String) (m : Nat) :
    (sanitizeForPrompt t m).data = [] ∨
      ∃ s : String, t = some s ∧
        (sanitizeForPrompt t m).data = sanitizeChars s.data m := by
  match t with
  | none => exact Or.inl rfl
  | some s =>
      by_cases hs : s = ""
      · left
        simp [sanitizeForPrompt, hs]
      · right
        exact ⟨s, rfl, by simp [sanitizeForPrompt, hs]⟩

/-- **C8.** For every input text and every `maxLength`, `sanitize`
(total in this model, so it never throws) produces an output with no
double-quote and no backslash character; empty or absent input yields
the empty string; and it is idempotent on its own output: applying it
to its own output under the same `maxLength` returns that output
unchanged. -/
theorem sanitizeForPrompt_spec (t : Option String) (m : Nat) :
    '"' ∉ (sanitizeForPrompt t m).data ∧
    '\\' ∉ (sanitizeForPrompt t m).data ∧
    sanitizeForPrompt none m = "" ∧
    sanitizeForPrompt (some "") m = "" ∧
    sanitizeForPrompt (some (sanitizeForPrompt t m)) m = sanitizeForPrompt t m := by
  have hquote : '"' ∉ (sanitizeForPrompt t m).data := by
    rcases data_sanitizeForPrompt t m with h | ⟨s, -, h⟩
    · rw [h]
      exact List.not_mem_nil _
    · rw [h]
      exact quote_not_mem_sanitizeChars s.data m
  have hback : '\\' ∉ (sanitizeForPrompt t m).data := by
    rcases data_sanitizeForPrompt t m with h | ⟨s, -, h⟩
    · rw [h]
      exact List.not_mem_nil _
    · rw [h]
      exact backslash_not_mem_sanitizeChars s.data m
  refine ⟨hquote, hback, rfl, by simp [sanitizeForPrompt], ?_⟩
  rcases data_sanitizeForPrompt t m with h | ⟨s, hts, h⟩
  · have hempty : sanitizeForPrompt t m = "" := by
      have := congrArg String.mk h
      simpa using this
    rw [hempty]
    simp [sanitizeForPrompt]
  · subst hts
    by_cases hs : s = ""
    · rw [hs]
      simp [sanitizeForPrompt]
    · have hval : sanitizeForPrompt (some s) m =
        String.mk (sanitizeChars s.data m) := by
        simp [sanitizeForPrompt, hs]
      rw [hval]
      by_cases hP : sanitizeChars s.data m = []
      · rw [hP]
        show sanitizeForPrompt (some "") m = String.mk []
        simp [sanitizeForPrompt]
      · have hne : String.mk (sanitizeChars s.data m) ≠ "" := by
          intro hcontra
          exact hP (by simpa using congrArg String.data hcontra)
        show (if String.mk (sanitizeChars s.data m) = "" then ""
          else String.mk (sanitizeChars
            (String.mk (sanitizeChars s.data m)).data m)) =
          String.mk (sanitizeChars s.data m)
        rw [if_neg hne]
        exact congrArg String.mk (sanitizeChars_idem s.data m)

/-! ## Supporting lemmas: question-mark extraction -/

theorem takeWhile_append_not {q : Char → Bool} {c : Char} (hc : q c = false) :
    ∀ (u v : List Char), (u ++ c :: v).takeWhile q = u.takeWhile q
  | [], v => by
      rw [List.nil_append]
      rw [List.takeWhile_cons_of_neg (by simp [hc])]
      rfl
  | a :: u', v => by
      rw [List.cons_append]
      by_cases ha : q a
      · rw [List.takeWhile_cons_of_pos ha, List.takeWhile_cons_of_pos ha,
          takeWhile_append_not hc u' v]
      · rw [List.takeWhile_cons_of_neg ha, List.takeWhile_cons_of_neg ha]

theorem takeWhile_all_of {q : Char → Bool} :
    ∀ {l : List Char}, (∀ c ∈ l, q c = true) → l.takeWhile q = l
  | [], _ => rfl
  | a :: t, h => by
      rw [List.takeWhile_cons_of_pos (h a (List.mem_cons_self a t)),
        takeWhile_all_of fun c hc => h c (List.mem_cons_of_mem a hc)]

theorem trailNonBreak_of_clean {acc : List Char}
    (h : ∀ c ∈ acc, c ≠ '.' ∧ c ≠ '!') :
    trailNonBreak acc.reverse = acc.reverse := by
  unfold trailNonBreak
  rw [List.reverse_reverse,
    takeWhile_all_of fun c hc => by
      obtain ⟨h1, h2⟩ := h c hc
      simp [h1, h2]]

theorem firstQuestionSeg_none : ∀ (l acc : List Char), '?' ∉ l →
    firstQuestionSeg l acc = none
  | [], _, _ => rfl
  | c :: rest, acc, h => by
      rw [firstQuestionSeg]
      have hc : ¬ c = '?' := fun hh => h (hh ▸ List.mem_cons_self c rest)
      have hr : '?' ∉ rest := fun hh => h (List.mem_cons_of_mem c hh)
      rw [if_neg hc]
      by_cases hb : c = '.' ∨ c = '!'
      · rw [if_pos hb]
        exact firstQuestionSeg_none rest [] hr
      · rw [if_neg hb]
        exact firstQuestionSeg_none rest (c :: acc) hr

theorem firstQuestionSeg_eq : ∀ (l acc : List Char), '?' ∈ l →
    (∀ c ∈ acc, c ≠ '.' ∧ c ≠ '!' ∧ c ≠ '?') →
    firstQuestionSeg l acc =
      some (trailNonBreak (acc.reverse ++ l.takeWhile fun c => !(c == '?')) ++ ['?'])
  | [], _, hmem, _ => absurd hmem (List.not_mem_nil _)
  | c :: rest, acc, hmem, hacc => by
      rw [firstQuestionSeg]
      by_cases hq : c = '?'
      · rw [if_pos hq]
        rw [hq, List.takeWhile_cons_of_neg (by simp), List.append_nil,
          trailNonBreak_of_clean fun c hc => ⟨(hacc c hc).1, (hacc c hc).2.1⟩]
      · have hrest : '?' ∈ rest := by
          rcases List.mem_cons.mp hmem with h | h
          · exact absurd h.symm hq
          · exact h
        have htake : (c :: rest).takeWhile (fun c => !(c == '?')) =
            c :: rest.takeWhile (fun c => !(c == '?')) :=
          List.takeWhile_cons_of_pos (by simp [hq])
        rw [if_neg hq]
        by_cases hb : c = '.' ∨ c = '!'
        · rw [if_pos hb]
          rw [firstQuestionSeg_eq rest [] hrest (by simp)]
          congr 2
          rw [htake, List.reverse_nil, List.nil_append]
          unfold trailNonBreak
          rw [List.reverse_append, List.reverse_cons, List.append_assoc,
            List.reverse_reverse, List.singleton_append,
            takeWhile_append_not (by rcases hb with hb | hb <;> simp [hb]) _ acc]
        · rw [if_neg hb]
          push_neg at hb
          rw [firstQuestionSeg_eq rest (c :: acc) hrest (fun d hd => by
            rcases List.mem_cons.mp hd with h | h
            · exact h ▸ ⟨hb.1, hb.2, hq⟩
            · exact hacc d h)]
          rw [htake, List.reverse_cons, List.append_assoc, List.singleton_append]

theorem questionMatch_eq {l : List Char} (h : '?' ∈ l) :
    questionMatch l = some (specQuestionSegment l) := by
  unfold questionMatch specQuestionSegment
  rw [firstQuestionSeg_eq l [] h (by simp), List.reverse_nil, List.nil_append]

/-- **C6.** The reflection-question fallback extractor returns the
first substring ending in `?` (the segment from just after the last
sentence break before the first `?`, through that `?` —
`specQuestionSegment`) cleaned by stripping leading non-letters,
removing quote characters and trimming; on text with no `?` and on
absent text it returns exactly the fixed default question; on
`"...great! How are you feeling now?"` it returns the cleaned question
ending in `?` with no leading punctuation. -/
theorem extractQuestionFromText_spec :
    extractQuestionFromText none = DEFAULT_FALLBACK_QUESTION ∧
    (∀ s : String, '?' ∉ s.data →
      extractQuestionFromText (some s) = DEFAULT_FALLBACK_QUESTION) ∧
    (∀ s : String, '?' ∈ s.data →
      extractQuestionFromText (some s) = cleanQuestion (specQuestionSegment s.data)) ∧
    extractQuestionFromText (some "...great! How are you feeling now?") =
      "How are you feeling now?" := by
  refine ⟨rfl, ?_, ?_, by decide⟩
  · intro s h
    by_cases hs : s = ""
    · rw [hs]
      rfl
    · have hnone : questionMatch s.data = none := firstQuestionSeg_none s.data [] h
      simp only [extractQuestionFromText]
      rw [if_neg hs, hnone]
  · intro s h
    have hs : s ≠ "" := by
      intro h0
      rw [h0] at h
      exact (List.not_mem_nil '?') h
    simp only [extractQuestionFromText]
    rw [if_neg hs, questionMatch_eq h]

/-- **C6 witness.** The extractor at concrete inputs: a text with no
question mark yields the default; a text with one yields the cleaned
first question segment. -/
theorem extractQuestionFromText_spec_witness :
    extractQuestionFromText (some "abc") = DEFAULT_FALLBACK_QUESTION ∧
    extractQuestionFromText (some "Why?") =
      cleanQuestion (specQuestionSegment ("Why?" : String).data) :=
  ⟨extractQuestionFromText_spec.2.1 "abc" (by decide),
   extractQuestionFromText_spec.2.2.1 "Why?" (by decide)⟩

/-- **C7.** The writing-prompts fallback returns at most the first `n`
of the qualifying lines — the split-on-line-breaks, trimmed lines
longer than 5 characters, in order (a sublist of all trimmed lines) —
every returned line has length at least 6, and on
`"a\nShort\nThis is a valid prompt line\n"` with requested count 3
it drops `"a"` and `"Short"` and returns the single remaining line. -/
theorem fallbackWritingPrompts_spec (s : String) (n : Nat) :
    (fallbackWritingPrompts s n).length ≤ n ∧
    fallbackWritingPrompts s n <+: qualifyingLines s ∧
    List.Sublist (qualifyingLines s)
      ((splitNl s.data).map fun l => String.mk (jsTrim l)) ∧
    (fallbackWritingPrompts s n).all (fun p => decide (5 < p.length)) = true ∧
    fallbackWritingPrompts "a\nShort\nThis is a valid prompt line\n" 3 =
      ["This is a valid prompt line"] := by
  refine ⟨?_, ?_, ?_, ?_, by decide⟩
  · show ((qualifyingLines s).take n).length ≤ n
    simp
  · exact List.take_prefix n (qualifyingLines s)
  · exact List.filter_sublist _
  · rw [List.all_eq_true]
    intro p hp
    have hp2 : p ∈ qualifyingLines s :=
      (List.take_sublist n (qualifyingLines s)).subset hp
    unfold qualifyingLines at hp2
    exact (List.mem_filter.mp hp2).2

/-- **C5.** The count used by the writing-prompts entry point is
always in `[1, 5]`, and a non-numeric or absent raw count (a `NaN`
parse) yields exactly 3. -/
theorem getWritingPromptsCount_spec (raw : Option String) :
    (1 ≤ getWritingPromptsCount raw ∧ getWritingPromptsCount raw ≤ 5) ∧
    (jsParseInt raw = none → getWritingPromptsCount raw = 3) := by
  rcases h : jsParseInt raw with - | v
  · rw [getWritingPromptsCount, h]
    exact ⟨by norm_num, fun _ => by norm_num⟩
  · constructor
    · rw [getWritingPromptsCount, h]
      by_cases hv : v = 0
      · rw [hv]
        norm_num
      · show 1 ≤ (if (if (if v = 0 then 3 else v) < 1 then 1
            else if v = 0 then 3 else v) > 5 then 5
            else if (if v = 0 then 3 else v) < 1 then 1
            else if v = 0 then 3 else v) ∧ _
        rw [if_neg hv]
        split_ifs <;> omega
    · intro hc
      exact absurd hc (by simp)

/-- **C5 witness.** A non-numeric raw count parses to `NaN` and yields
exactly 3. -/
theorem getWritingPromptsCount_spec_witness :
    getWritingPromptsCount (some "abc") = 3 :=
  (getWritingPromptsCount_spec (some "abc")).2 (by decide)

/-- **C10.** A raw count whose integer parse is 0 (for example the
query value `"0"`) is treated exactly like an absent count: the falsy
`parseInt(count, 10) || 3` yields the default 3, not a clamp to 1. -/
theorem getWritingPromptsCount_zero_spec :
    getWritingPromptsCount (some "0") = 3 ∧
    getWritingPromptsCount none = 3 ∧
    ∀ raw, jsParseInt raw = some 0 →
      getWritingPromptsCount raw = getWritingPromptsCount none := by
  refine ⟨by decide, by decide, ?_⟩
  intro raw h
  rw [getWritingPromptsCount, h]
  decide

/-- **C10 witness.** The query value `"0"` parses to 0 and is treated
like an absent count. -/
theorem getWritingPromptsCount_zero_spec_witness :
    getWritingPromptsCount (some "0") = getWritingPromptsCount none :=
  getWritingPromptsCount_zero_spec.2.2 (some "0") (by decide)

/-- **C4 counterexample.** The claim fails at the concrete override
`{ temperature: 0 }`: the merged temperature is the default `0.7`,
not the caller's (non-null) override `0`, because `temperature` is
merged with `||` and `0` is falsy. -/
theorem buildGenerationConfig_zero_counterexample :
    (buildGenerationConfig { temperature := some 0 }).temperature = 0.7 ∧
    ¬ ((0.7 : ℚ) = 0) :=
  ⟨rfl, by norm_num⟩

/-- **C4 (amended).** `topP` and `topK` merge as the claim states
(the override wins whenever present and non-null, including the value
0); `temperature` and `maxOutputTokens` take the override only when
it is present, non-null and nonzero — a 0 override falls back to the
default — and the defaults are `temperature=0.7`,
`maxOutputTokens=2048`, `topP=0.95`, `topK=40`. -/
theorem buildGenerationConfig_merge (o : GenOptions) :
    ((o.topP = none → (buildGenerationConfig o).topP = 0.95) ∧
      ∀ v, o.topP = some v → (buildGenerationConfig o).topP = v) ∧
    ((o.topK = none → (buildGenerationConfig o).topK = 40) ∧
      ∀ v, o.topK = some v → (buildGenerationConfig o).topK = v) ∧
    ((o.temperature = none ∨ o.temperature = some 0 →
        (buildGenerationConfig o).temperature = 0.7) ∧
      ∀ v, o.temperature = some v → v ≠ 0 →
        (buildGenerationConfig o).temperature = v) ∧
    ((o.maxOutputTokens = none ∨ o.maxOutputTokens = some 0 →
        (buildGenerationConfig o).maxOutputTokens = 2048) ∧
      ∀ v, o.maxOutputTokens = some v → v ≠ 0 →
        (buildGenerationConfig o).maxOutputTokens = v) := by
  refine ⟨⟨?_, ?_⟩, ⟨?_, ?_⟩, ⟨?_, ?_⟩, ⟨?_, ?_⟩⟩
  · intro h
    simp [buildGenerationConfig, h]
  · intro v h
    simp [buildGenerationConfig, h]
  · intro h
    simp [buildGenerationConfig, h]
  · intro v h
    simp [buildGenerationConfig, h]
  · rintro (h | h) <;> simp [buildGenerationConfig, jsOrDefault, h]
  · intro v h hv
    simp [buildGenerationConfig, jsOrDefault, h, hv]
  · rintro (h | h) <;> simp [buildGenerationConfig, jsOrDefault, h]
  · intro v h hv
    simp [buildGenerationConfig, jsOrDefault, h, hv]

/-- **C4 witness.** A nonzero temperature override and a zero `topP`
override are both honoured. -/
theorem buildGenerationConfig_merge_witness :
    (buildGenerationConfig { temperature := some 1, topP := some 0 }).temperature = 1 ∧
    (buildGenerationConfig { temperature := some 1, topP := some 0 }).topP = 0 :=
  ⟨(buildGenerationConfig_merge { temperature := some 1, topP := some 0 }).2.2.1.2
      1 rfl (by norm_num),
   (buildGenerationConfig_merge { temperature := some 1, topP := some 0 }).1.2 0 rfl⟩

/-- A classified provider failure is always an error value, never a
success. -/
theorem callGeminiAPI_failure_isError (e : ProviderError) :
    ∃ err, callGeminiAPI (.failure e) = .error err := by
  simp only [callGeminiAPI]
  split_ifs <;> exact ⟨_, rfl⟩

/-- **C3.** The error raised for a failing provider call is determined
solely by the provider-reported status: 429 yields the rate-limited
kind, 400 the bad-request kind with the provider's own message
included, 401/403 the auth-failed kind, anything else the unavailable
kind; and in every failing case the success envelope is never
returned, neither by the gateway nor by `generateContent`. -/
theorem callGeminiAPI_classification (e : ProviderError) :
    (e.status = some 429 →
      callGeminiAPI (.failure e) = .error
        { kind := .providerRateLimited
          message := "AI service rate limit exceeded. Please, try again later."
          cause := some e }) ∧
    (e.status = some 400 →
      (∃ err, callGeminiAPI (.failure e) = .error err ∧
        err.kind = .providerBadRequest ∧
        ∃ pre post, err.message = pre ++ e.message ++ post)) ∧
    (e.status = some 401 ∨ e.status = some 403 →
      callGeminiAPI (.failure e) = .error
        { kind := .providerAuthFailed
          message := "AI Service authentication failed. Check API key configuration."
          cause := some e }) ∧
    (e.status ≠ some 429 → e.status ≠ some 400 → e.status ≠ some 401 →
      e.status ≠ some 403 →
      callGeminiAPI (.failure e) = .error
        { kind := .providerUnavailable
          message := "AI Service temporarily unavailable" ++ e.message
          cause := some e }) ∧
    (∀ r, callGeminiAPI (.failure e) ≠ .ok r) ∧
    (∀ prompt options (provider : GenerationConfig → ProviderOutcome),
      (∀ cfg, provider cfg = .failure e) →
      ∀ r, (generateContent prompt options provider).1 ≠ .ok r) := by
  refine ⟨?_, ?_, ?_, ?_, ?_, ?_⟩
  · intro h
    simp only [callGeminiAPI]
    rw [if_pos h]
  · intro h
    have h429 : ¬ e.status = some 429 := by
      rw [h]
      simp
    simp only [callGeminiAPI]
    rw [if_neg h429, if_pos h]
    refine ⟨_, rfl, rfl, "Invalid request to AI service", "", ?_⟩
    rw [String.append_empty]
  · intro h
    have h429 : ¬ e.status = some 429 := by
      rcases h with h | h <;> rw [h] <;> simp
    have h400 : ¬ e.status = some 400 := by
      rcases h with h | h <;> rw [h] <;> simp
    simp only [callGeminiAPI]
    rw [if_neg h429, if_neg h400, if_pos h]
  · intro h1 h2 h3 h4
    simp only [callGeminiAPI]
    rw [if_neg h1, if_neg h2, if_neg (by rintro (h | h) <;> [exact h3 h; exact h4 h])]
  · intro r
    obtain ⟨err, herr⟩ := callGeminiAPI_failure_isError e
    rw [herr]
    simp
  · intro prompt options provider hp r
    unfold generateContent
    cases hv : validatePrompt prompt with
    | error e' => simp
    | ok u =>
        rw [hp (buildGenerationConfig options)]
        obtain ⟨err, herr⟩ := callGeminiAPI_failure_isError e
        rw [herr]
        simp

/-- **C3 witness.** A 429 failure is classified as rate-limited, and
`generateContent` never returns the envelope for a failing provider. -/
theorem callGeminiAPI_classification_witness :
    callGeminiAPI (.failure { status := some 429, message := "quota" }) =
      .error { kind := .providerRateLimited
               message := "AI service rate limit exceeded. Please, try again later."
               cause := some { status := some 429, message := "quota" } } ∧
    ∀ r, (generateContent (some "hi") {}
      (fun _ => .failure { status := some 429, message := "quota" })).1 ≠ .ok r :=
  ⟨(callGeminiAPI_classification _).1 rfl,
   (callGeminiAPI_classification _).2.2.2.2.2 (some "hi") {} _ (fun _ => rfl)⟩

/-- **C9 counterexample.** The claim fails on the malformed-request
branch: a 400 failure is mapped to an error whose `cause` is absent —
the source constructs that error without passing the original failure. -/
theorem callGeminiAPI_cause_counterexample :
    callGeminiAPI (.failure { status := some 400, message := "boom" }) =
      .error { kind := .providerBadRequest
               message := "Invalid request to AI serviceboom"
               cause := none } ∧
    ¬ ∃ err, callGeminiAPI (.failure { status := some 400, message := "boom" }) =
        .error err ∧ err.cause = some { status := some 400, message := "boom" } := by
  constructor
  · rfl
  · rintro ⟨err, heq, hcause⟩
    rw [show callGeminiAPI (.failure { status := some 400, message := "boom" }) =
      Except.error { kind := ErrorKind.providerBadRequest
                     message := "Invalid request to AI serviceboom"
                     cause := none } from rfl] at heq
    injection heq with h
    rw [← h] at hcause
    exact Option.noConfusion hcause

/-- **C9 (amended).** Every mapped provider failure except the
malformed-request (400) branch carries the original failure as its
wrapped cause; the 400 branch's error carries no cause. -/
theorem callGeminiAPI_cause (e : ProviderError) :
    (e.status ≠ some 400 →
      ∃ err, callGeminiAPI (.failure e) = .error err ∧ err.cause = some e) ∧
    (e.status = some 400 →
      ∃ err, callGeminiAPI (.failure e) = .error err ∧ err.cause = none) := by
  constructor
  · intro h
    simp only [callGeminiAPI]
    by_cases h1 : e.status = some 429
    · rw [if_pos h1]
      exact ⟨_, rfl, rfl⟩
    · rw [if_neg h1, if_neg h]
      by_cases h3 : e.status = some 401 ∨ e.status = some 403
      · rw [if_pos h3]
        exact ⟨_, rfl, rfl⟩
      · rw [if_neg h3]
        exact ⟨_, rfl, rfl⟩
  · intro h
    simp only [callGeminiAPI]
    rw [if_neg (by rw [h]; simp), if_pos h]
    exact ⟨_, rfl, rfl⟩

/-- **C9 witness.** A 503 failure carries its cause; a 400 failure
does not. -/
theorem callGeminiAPI_cause_witness :
    (∃ err, callGeminiAPI (.failure { status := some 503, message := "down" }) =
      .error err ∧ err.cause = some { status := some 503, message := "down" }) ∧
    ∃ err, callGeminiAPI (.failure { status := some 400, message := "bad" }) =
      .error err ∧ err.cause = none :=
  ⟨(callGeminiAPI_cause { status := some 503, message := "down" }).1 (by decide),
   (callGeminiAPI_cause { status := some 400, message := "bad" }).2 rfl⟩

/-- **C2.** A reflection-question request with a missing letter
identifier, or whose fetched letter is not delivered, and a freeform
request whose prompt is not a non-blank string, each raise a
`Validation` error with field-level detail, and the provider is never
invoked: the number of provider calls made for such a request is
exactly 0. -/
theorem validation_before_provider :
    (∀ lookup provider decode,
      getReflectionPrompt none lookup provider decode =
        (.error { kind := .validation
                  message := "Letter ID is required"
                  details := [("letterId", "Please provide the letter ID")] }, 0)) ∧
    (∀ (lid : String) (letter : Letter) provider decode, lid ≠ "" →
      letter.isDelivered = false →
      getReflectionPrompt (some lid) (.ok letter) provider decode =
        (.error { kind := .validation
                  message := "Reflection prompts are only available for delivered letters"
                  details := [("letterId", "This letter has not been delivered yet")] },
          0)) ∧
    (∀ (prompt : Option String) options provider,
      (prompt = none ∨ ∃ s, prompt = some s ∧ jsTrimStr s = "") →
      ∃ err, generateContent prompt options provider = (.error err, 0) ∧
        err.kind = .validation ∧ err.details ≠ []) := by
  refine ⟨?_, ?_, ?_⟩
  · intro lookup provider decode
    unfold getReflectionPrompt
    rw [if_pos (Or.inl rfl)]
  · intro lid letter provider decode hlid hdel
    unfold getReflectionPrompt
    rw [if_neg (by
      rintro (h | h)
      · exact Option.noConfusion h
      · exact hlid (Option.some.inj h))]
    simp only []
    rw [if_pos hdel]
  · intro prompt options provider h
    rcases h with rfl | ⟨s, rfl, hs⟩
    · exact ⟨_, rfl, rfl, by simp⟩
    · refine ⟨{ kind := .validation
                message := "Prompt cannot be empty"
                details := [("prompt", "Prompt must contain text")] }, ?_, rfl, by simp⟩
      simp only [generateContent, validatePrompt]
      rw [if_pos hs]

/-- **C2 witness.** Each validation path at concrete inputs: missing
letter identifier, undelivered letter, blank freeform prompt — all
with zero provider calls. -/
theorem validation_before_provider_witness :
    getReflectionPrompt none (.ok {}) (.success {}) (fun _ => none) =
      (.error { kind := .validation
                message := "Letter ID is required"
                details := [("letterId", "Please provide the letter ID")] }, 0) ∧
    getReflectionPrompt (some "L1") (.ok { isDelivered := false }) (.success {})
        (fun _ => none) =
      (.error { kind := .validation
                message := "Reflection prompts are only available for delivered letters"
                details := [("letterId", "This letter has not been delivered yet")] },
        0) ∧
    ∃ err, generateContent (some "   ") {} (fun _ => .success {}) =
      (.error err, 0) ∧ err.kind = .validation ∧ err.details ≠ [] :=
  ⟨validation_before_provider.1 (.ok {}) (.success {}) (fun _ => none),
   validation_before_provider.2.1 "L1" { isDelivered := false } (.success {})
     (fun _ => none) (by decide) rfl,
   validation_before_provider.2.2 (some "   ") {} (fun _ => .success {})
     (Or.inr ⟨"   ", rfl, by decide⟩)⟩

/-- **C1 counterexample.** The claim fails for the writing-prompts
intent with absent raw text: JSON decoding fails, and the fallback
itself throws a `TypeError` (`response.text.split` on `undefined`)
instead of returning a degraded result — the same happens for the
affirmation intent. -/
theorem generateWritingPrompts_absent_text_counterexample :
    generateWritingPrompts {} (.success {}) (fun _ => none) =
      (.error (.runtime (.typeError
        "Cannot read properties of undefined (reading 'split')")), 1) := rfl

/-- **C1 (amended).** When schema decoding of the provider's raw text
fails, the reflection intent returns a fallback result marked
`parseError` (the spec's `degraded=true`) for every raw text including
absent text, never raising; the writing-prompts and affirmation
intents do the same whenever the raw text is present (a string) —
with absent text their fallbacks throw a `TypeError`. -/
theorem fallback_marks_degraded :
    (∀ (letter : Letter) (resp : GeminiResponse) decode,
      letter.content ≠ none → letter.content ≠ some "" →
      (∀ t, resp.text = some t → decode t = none) →
      generateReflectionPrompt letter (.success resp) decode =
        (.ok ⟨extractQuestionFromText resp.text, .fallback⟩, 1)) ∧
    (∀ (options : WritingPromptOptions) (resp : GeminiResponse) (t : String) decode,
      resp.text = some t → decode t = none →
      generateWritingPrompts options (.success resp) decode =
        (.ok ⟨fallbackWritingPrompts t options.count, .fallback⟩, 1)) ∧
    (∀ (options : AffirmationOptions) (resp : GeminiResponse) (t : String) decode,
      resp.text = some t → decode t = none →
      generateAffirmation options (.success resp) decode =
        (.ok ⟨jsTrimStr t, .fallback⟩, 1)) ∧
    GenMetadata.fallback.parseError = true := by
  refine ⟨?_, ?_, ?_, rfl⟩
  · intro letter resp decode h1 h2 hd
    have hi : interpretReflection decode resp =
        (⟨extractQuestionFromText resp.text, .fallback⟩ : ReflectionResult) := by
      cases ht : resp.text with
      | none => simp [interpretReflection, ht]
      | some t => simp [interpretReflection, ht, hd t ht]
    unfold generateReflectionPrompt
    rw [if_neg (by
      rintro (h | h)
      · exact h1 h
      · exact h2 h)]
    simp [callGeminiAPI, hi]
  · intro options resp t decode ht hd
    have hi : interpretWritingPrompts decode resp options.count =
        Except.ok ⟨fallbackWritingPrompts t options.count, .fallback⟩ := by
      simp [interpretWritingPrompts, ht, hd]
    simp [generateWritingPrompts, callGeminiAPI, hi]
  · intro options resp t decode ht hd
    have hi : interpretAffirmation decode resp =
        Except.ok ⟨jsTrimStr t, .fallback⟩ := by
      simp [interpretAffirmation, ht, hd]
    simp [generateAffirmation, callGeminiAPI, hi]

/-- **C1 witness.** Fallback results at concrete inputs: the
reflection intent on absent text yields the default question marked
`parseError`; the other two intents on present undecodable text yield
their fallback extractions marked `parseError`. -/
theorem fallback_marks_degraded_witness :
    generateReflectionPrompt { content := some "hello" } (.success {})
        (fun _ => none) =
      (.ok ⟨extractQuestionFromText none, .fallback⟩, 1) ∧
    generateWritingPrompts {} (.success { text := some "only line" })
        (fun _ => none) =
      (.ok ⟨fallbackWritingPrompts "only line" 3, .fallback⟩, 1) ∧
    generateAffirmation {} (.success { text := some " be well " })
        (fun _ => none) =
      (.ok ⟨jsTrimStr " be well ", .fallback⟩, 1) :=
  ⟨fallback_marks_degraded.1 { content := some "hello" } {} (fun _ => none)
      (by decide) (by decide) (fun t ht => rfl),
   fallback_marks_degraded.2.1 {} { text := some "only line" } "only line"
      (fun _ => none) rfl rfl,
   fallback_marks_degraded.2.2.1 {} { text := some " be well " } " be well "
      (fun _ => none) rfl rfl⟩

end SoulMail
